import Mathlib

/-!
Verification of the pygase / PyGaSe state-replication engine.

The development shallowly embeds the two source modules
`pygase/backend.py` (GameStateStore, Server.dispatch_event, GameStateMachine)
and `PyGaSe/gameService.py` (the request handler and GameLoop) together with
the state/update data model they operate on.  The data-model classes
(`GameState`/`GameStateUpdate`, resp. `SharedGameState`/`SharedGameStateUpdate`)
are not part of the two modules; their merge algebra is modelled from the
specification as indicated in the doc comments below.

Python dictionaries are embedded as association lists with first-match lookup:
assigning to an existing key overwrites it in place, assigning a fresh key
appends it, which reproduces Python's insertion-order semantics.
-/

/-- First-match lookup in an association list, i.e. Python `d[k]` as a partial
operation (`none` when the key is absent). -/
def dlookup {K V : Type} [DecidableEq K] (k : K) : List (K × V) → Option V
  | [] => none
  | (k', v) :: rest => if k = k' then some v else dlookup k rest

/-- Python `d[k] = v`: overwrite the (first) binding of `k` in place if present,
otherwise append the new binding. -/
def insertKV {K V : Type} [DecidableEq K] (k : K) (v : V) : List (K × V) → List (K × V)
  | [] => [(k, v)]
  | (k', v') :: rest => if k = k' then (k, v) :: rest else (k', v') :: insertKV k v rest

/-- Python `del d[k]` (total: removes every binding of `k`). -/
def eraseKey {K V : Type} [DecidableEq K] (k : K) (l : List (K × V)) : List (K × V) :=
  l.filter (fun kv => decide (kv.1 ≠ k))

/-- Python `base.update(upd)`: fold the bindings of `upd` into `base`, later
bindings winning. -/
def dmerge {K V : Type} [DecidableEq K] (base upd : List (K × V)) : List (K × V) :=
  upd.foldl (fun acc kv => insertKV kv.1 kv.2 acc) base

/-- `true` iff `k` is bound in the association list. -/
def hasKey {K V : Type} [DecidableEq K] (k : K) : List (K × V) → Bool
  | [] => false
  | (k', _) :: rest => if k = k' then true else hasKey k rest

/-- A well-formed embedded Python dict binds each key at most once. -/
def nodupKeys {K V : Type} [DecidableEq K] : List (K × V) → Bool
  | [] => true
  | (k, _) :: rest => !hasKey k rest && nodupKeys rest

theorem dlookup_insertKV {K V : Type} [DecidableEq K] (k k' : K) (v : V)
    (l : List (K × V)) :
    dlookup k' (insertKV k v l) = if k' = k then some v else dlookup k' l := by
  induction l with
  | nil => simp [insertKV, dlookup]
  | cons kv rest ih =>
    obtain ⟨k0, v0⟩ := kv
    by_cases hk : k = k0
    · subst hk
      by_cases hk' : k' = k <;> simp [insertKV, dlookup, hk']
    · by_cases hk' : k' = k0
      · subst hk'
        have hne : ¬ (k' = k) := fun h => hk h.symm
        simp [insertKV, hk, dlookup, hne]
      · simp [insertKV, hk, dlookup, hk', ih]

theorem dlookup_eraseKey {K V : Type} [DecidableEq K] (k k' : K) (l : List (K × V)) :
    dlookup k' (eraseKey k l) = if k' = k then none else dlookup k' l := by
  induction l with
  | nil => simp [eraseKey, dlookup]
  | cons kv rest ih =>
    obtain ⟨k0, v0⟩ := kv
    by_cases h0 : k0 = k
    · subst h0
      by_cases hk' : k' = k0 <;>
        simpa [eraseKey, List.filter, dlookup, hk'] using ih
    · by_cases hk' : k' = k0
      · subst hk'
        simp [eraseKey, List.filter, h0, dlookup]
      · simpa [eraseKey, List.filter, h0, dlookup, hk'] using ih

theorem hasKey_false_dlookup {K V : Type} [DecidableEq K] (k : K) (l : List (K × V))
    (h : hasKey k l = false) : dlookup k l = none := by
  induction l with
  | nil => rfl
  | cons kv rest ih =>
    obtain ⟨k0, v0⟩ := kv
    by_cases hk : k = k0
    · simp [hasKey, hk] at h
    · simp [hasKey, hk] at h
      simp [dlookup, hk, ih h]

theorem dlookup_dmerge {K V : Type} [DecidableEq K] (k : K) (base upd : List (K × V))
    (h : nodupKeys upd = true) :
    dlookup k (dmerge base upd) = (dlookup k upd).or (dlookup k base) := by
  induction upd generalizing base with
  | nil => simp [dmerge, dlookup, Option.or]
  | cons kv rest ih =>
    obtain ⟨k0, v0⟩ := kv
    simp [nodupKeys, Bool.and_eq_true] at h
    have step : dmerge base ((k0, v0) :: rest) = dmerge (insertKV k0 v0 base) rest := rfl
    rw [step, ih _ h.2]
    by_cases hk : k = k0
    · subst hk
      rw [hasKey_false_dlookup k rest h.1]
      simp [dlookup, dlookup_insertKV, Option.or]
    · simp [dlookup, hk, dlookup_insertKV]

/-- Modelled from the spec: the game-status enum `{Active, Paused}`
(`GameStatus` in both source trees; the class itself is defined in the absent
modules `pygase/gamestate.py` / `sharedGameData.py`). -/
inductive GameStatus where
  | active
  | paused
deriving DecidableEq, Repr

/-- Modelled from the spec: the default player record created by the Join
handling (`gameService.py` lines 119-125 spell out its shape:
`{'name': ..., 'position': (0, 0), 'velocity': (0, 0)}`). -/
structure Player where
  name : String
  position : Nat × Nat
  velocity : Nat × Nat
deriving DecidableEq, Repr

/-- Modelled from the spec: a versioned snapshot (`GameState` /
`SharedGameState`, defined in the absent data-model modules): a `time_order`
version counter starting at 0, a status, a nested `players` container mapping
server-assigned integer ids to player records, and a sparse mapping of further
top-level attributes (values taken as integers). -/
structure GameState where
  time_order : Nat
  game_status : GameStatus
  players : List (Nat × Player)
  attrs : List (String × Nat)
deriving DecidableEq, Repr

/-- Modelled from the spec: a versioned partial delta (`GameStateUpdate` /
`SharedGameStateUpdate`, defined in the absent data-model modules).  Absent
fields are `none` / the empty mapping; in the nested `players` mapping a
`none` value is the designated deletion sentinel. -/
structure GameStateUpdate where
  time_order : Nat
  game_status : Option GameStatus
  players : List (Nat × Option Player)
  attrs : List (String × Nat)
deriving DecidableEq, Repr

/-- Recursive merge of an update's `players` mapping into a state's: keys
present in the update overwrite/insert, absent keys are untouched, the
sentinel (`none`) deletes the key.  Modelled from the spec's nested-container
merge rule. -/
def papply (base : List (Nat × Player)) (upd : List (Nat × Option Player)) :
    List (Nat × Player) :=
  upd.foldl
    (fun acc kv =>
      match kv.2 with
      | some p => insertKV kv.1 p acc
      | none => eraseKey kv.1 acc)
    base

/-- Modelled from the spec: `state + update` sets
`state.time_order = update.time_order` and merges every present attribute
(status if present, `players` recursively, plain attributes last-writer-wins).
The monotonicity guard `update.time_order > state.time_order` is *not* part of
this operation; it sits at the call sites (`GameStateStore.push_update`). -/
def GameState.applyUpdate (s : GameState) (u : GameStateUpdate) : GameState :=
  { time_order := u.time_order
    game_status := u.game_status.getD s.game_status
    players := papply s.players u.players
    attrs := dmerge s.attrs u.attrs }

/-- The second operand wins when both are present. -/
def optUnion {α : Type} (a b : Option α) : Option α :=
  match b with
  | some x => some x
  | none => a

/-- Modelled from the spec: `u1 + u2` coalesces two updates into one carrying
the greater `time_order` whose attribute-wise union lets the newer update win
on conflicting keys (recursively in nested containers, sentinels preserved).
The spec defines the ascending case `u1.time_order < u2.time_order`; for the
non-ascending case the total ordering by `time_order` makes the left update
the newer one and it wins symmetrically. -/
def GameStateUpdate.combine (u1 u2 : GameStateUpdate) : GameStateUpdate :=
  if u1.time_order < u2.time_order then
    { time_order := u2.time_order
      game_status := optUnion u1.game_status u2.game_status
      players := dmerge u1.players u2.players
      attrs := dmerge u1.attrs u2.attrs }
  else
    { time_order := u1.time_order
      game_status := optUnion u2.game_status u1.game_status
      players := dmerge u2.players u1.players
      attrs := dmerge u2.attrs u1.attrs }

/-- A structurally well-formed update: its embedded Python dicts bind every
key at most once. -/
def GameStateUpdate.wf (u : GameStateUpdate) : Bool :=
  nodupKeys u.players && nodupKeys u.attrs

/-- Extensional equality of embedded Python dicts (Python `==` on dicts
ignores insertion order). -/
def dictEqv {K V : Type} [DecidableEq K] (d1 d2 : List (K × V)) : Prop :=
  ∀ k, dlookup k d1 = dlookup k d2

/-- Extensional equality of game states: equal version, status, and dict
contents (the translation of Python `==` on the state objects). -/
def GameState.eqv (s1 s2 : GameState) : Prop :=
  s1.time_order = s2.time_order ∧ s1.game_status = s2.game_status ∧
    dictEqv s1.players s2.players ∧ dictEqv s1.attrs s2.attrs

theorem GameState.eqv_refl (s : GameState) : s.eqv s :=
  ⟨rfl, rfl, fun _ => rfl, fun _ => rfl⟩

theorem dlookup_papply (k : Nat) (base : List (Nat × Player))
    (upd : List (Nat × Option Player)) (h : nodupKeys upd = true) :
    dlookup k (papply base upd) =
      match dlookup k upd with
      | some (some p) => some p
      | some none => none
      | none => dlookup k base := by
  induction upd generalizing base with
  | nil => simp [papply, dlookup]
  | cons kv rest ih =>
    obtain ⟨k0, ov⟩ := kv
    simp [nodupKeys, Bool.and_eq_true] at h
    have step : papply base ((k0, ov) :: rest) =
        papply (match ov with
                | some p => insertKV k0 p base
                | none => eraseKey k0 base) rest := by
      cases ov <;> rfl
    rw [step, ih _ h.2]
    by_cases hk : k = k0
    · subst hk
      rw [hasKey_false_dlookup k rest h.1]
      cases ov <;> simp [dlookup, dlookup_insertKV, dlookup_eraseKey]
    · cases ov <;> simp [dlookup, hk, dlookup_insertKV, dlookup_eraseKey]

theorem GameState.eqv_trans {s1 s2 s3 : GameState} (h12 : s1.eqv s2)
    (h23 : s2.eqv s3) : s1.eqv s3 :=
  ⟨h12.1.trans h23.1, h12.2.1.trans h23.2.1,
    fun k => (h12.2.2.1 k).trans (h23.2.2.1 k),
    fun k => (h12.2.2.2 k).trans (h23.2.2.2 k)⟩

theorem hasKey_insertKV {K V : Type} [DecidableEq K] (k k' : K) (v : V)
    (l : List (K × V)) :
    hasKey k' (insertKV k v l) = (decide (k' = k) || hasKey k' l) := by
  induction l with
  | nil => simp [insertKV, hasKey]
  | cons kv rest ih =>
    obtain ⟨k0, v0⟩ := kv
    by_cases hk : k = k0
    · subst hk
      by_cases hk' : k' = k <;> simp [insertKV, hasKey, hk']
    · by_cases hk' : k' = k0 <;> simp [insertKV, hk, hasKey, hk', ih]

theorem nodupKeys_insertKV {K V : Type} [DecidableEq K] (k : K) (v : V)
    (l : List (K × V)) (h : nodupKeys l = true) :
    nodupKeys (insertKV k v l) = true := by
  induction l with
  | nil => simp [insertKV, nodupKeys, hasKey]
  | cons kv rest ih =>
    obtain ⟨k0, v0⟩ := kv
    simp [nodupKeys, Bool.and_eq_true] at h
    by_cases hk : k = k0
    · subst hk
      simp [insertKV, nodupKeys, h.1, h.2]
    · have hk0 : ¬ k0 = k := fun hh => hk hh.symm
      simp [insertKV, hk, nodupKeys, hasKey_insertKV, Bool.and_eq_true, h.2, ih h.2,
        h.1, hk0]

theorem hasKey_eraseKey {K V : Type} [DecidableEq K] (k k' : K) (l : List (K × V))
    (h : hasKey k' l = false) : hasKey k' (eraseKey k l) = false := by
  induction l with
  | nil => rfl
  | cons kv rest ih =>
    obtain ⟨k0, v0⟩ := kv
    by_cases hk' : k' = k0
    · simp [hasKey, hk'] at h
    · simp [hasKey, hk'] at h
      by_cases h0 : k0 = k
      · simpa [eraseKey, List.filter, h0] using ih h
      · simpa [eraseKey, List.filter, h0, hasKey, hk'] using ih h

theorem nodupKeys_eraseKey {K V : Type} [DecidableEq K] (k : K) (l : List (K × V))
    (h : nodupKeys l = true) : nodupKeys (eraseKey k l) = true := by
  induction l with
  | nil => rfl
  | cons kv rest ih =>
    obtain ⟨k0, v0⟩ := kv
    simp [nodupKeys, Bool.and_eq_true] at h
    by_cases h0 : k0 = k
    · simpa [eraseKey, List.filter, h0] using ih h.2
    · simp [eraseKey, List.filter, h0, nodupKeys, Bool.and_eq_true]
      refine ⟨?_, by simpa [eraseKey] using ih h.2⟩
      simpa [eraseKey] using hasKey_eraseKey k k0 rest h.1

theorem nodupKeys_dmerge {K V : Type} [DecidableEq K] (base upd : List (K × V))
    (h : nodupKeys base = true) : nodupKeys (dmerge base upd) = true := by
  induction upd generalizing base with
  | nil => exact h
  | cons kv rest ih =>
    exact ih (insertKV kv.1 kv.2 base) (nodupKeys_insertKV kv.1 kv.2 base h)

theorem nodupKeys_papply (base : List (Nat × Player))
    (upd : List (Nat × Option Player)) (h : nodupKeys base = true) :
    nodupKeys (papply base upd) = true := by
  induction upd generalizing base with
  | nil => exact h
  | cons kv rest ih =>
    obtain ⟨k0, ov⟩ := kv
    cases ov with
    | some p => exact ih (insertKV k0 p base) (nodupKeys_insertKV k0 p base h)
    | none => exact ih (eraseKey k0 base) (nodupKeys_eraseKey k0 base h)

theorem GameStateUpdate.wf_combine {u1 u2 : GameStateUpdate} (h1 : u1.wf = true)
    (h2 : u2.wf = true) : (u1.combine u2).wf = true := by
  simp [GameStateUpdate.wf, Bool.and_eq_true] at h1 h2
  by_cases hto : u1.time_order < u2.time_order <;>
    simp [GameStateUpdate.combine, hto, GameStateUpdate.wf, Bool.and_eq_true,
      nodupKeys_dmerge _ _ h1.1, nodupKeys_dmerge _ _ h1.2,
      nodupKeys_dmerge _ _ h2.1, nodupKeys_dmerge _ _ h2.2]

theorem combine_time_order_of_lt {u1 u2 : GameStateUpdate}
    (h : u1.time_order < u2.time_order) :
    (u1.combine u2).time_order = u2.time_order := by
  simp [GameStateUpdate.combine, h]

/-- Combining two updates in ascending order and applying the result is
extensionally the same as applying them one after the other (the single-step
core of the catch-up correctness argument). -/
theorem applyUpdate_combine (S : GameState) (u1 u2 : GameStateUpdate)
    (hto : u1.time_order < u2.time_order) (h1 : u1.wf = true) (h2 : u2.wf = true) :
    (S.applyUpdate (u1.combine u2)).eqv ((S.applyUpdate u1).applyUpdate u2) := by
  simp [GameStateUpdate.wf, Bool.and_eq_true] at h1 h2
  refine ⟨?_, ?_, ?_, ?_⟩
  · simp [GameState.applyUpdate, GameStateUpdate.combine, hto]
  · simp only [GameState.applyUpdate, GameStateUpdate.combine, hto, if_pos]
    cases hg2 : u2.game_status <;> cases hg1 : u1.game_status <;>
      simp [optUnion, hg1, hg2]
  · intro k
    simp only [GameState.applyUpdate, GameStateUpdate.combine, hto, if_pos]
    rw [dlookup_papply k _ _ (nodupKeys_dmerge _ _ h1.1),
      dlookup_papply k _ _ h2.1, dlookup_papply k _ _ h1.1,
      dlookup_dmerge k _ _ h2.1]
    cases dlookup k u2.players with
    | some o => cases o <;> simp [Option.or]
    | none =>
      cases dlookup k u1.players with
      | some o => cases o <;> simp [Option.or]
      | none => simp [Option.or]
  · intro k
    simp only [GameState.applyUpdate, GameStateUpdate.combine, hto, if_pos]
    rw [dlookup_dmerge k _ _ (nodupKeys_dmerge _ _ h1.2),
      dlookup_dmerge k _ _ h2.2, dlookup_dmerge k _ _ h2.2,
      dlookup_dmerge k _ _ h1.2]
    cases dlookup k u2.attrs <;> cases dlookup k u1.attrs <;> simp [Option.or]

/-- Applying the same well-formed update to extensionally equal states yields
extensionally equal states. -/
theorem applyUpdate_eqv_congr {S T : GameState} (u : GameStateUpdate)
    (h : S.eqv T) (hu : u.wf = true) : (S.applyUpdate u).eqv (T.applyUpdate u) := by
  simp [GameStateUpdate.wf, Bool.and_eq_true] at hu
  refine ⟨rfl, by simp [GameState.applyUpdate, h.2.1], ?_, ?_⟩
  · intro k
    simp only [GameState.applyUpdate]
    rw [dlookup_papply k _ _ hu.1, dlookup_papply k _ _ hu.1, h.2.2.1 k]
  · intro k
    simp only [GameState.applyUpdate]
    rw [dlookup_dmerge k _ _ hu.2, dlookup_dmerge k _ _ hu.2, h.2.2.2 k]

theorem foldl_applyUpdate_eqv_congr {S T : GameState} (us : List GameStateUpdate)
    (h : S.eqv T) (hwf : us.all GameStateUpdate.wf = true) :
    (List.foldl GameState.applyUpdate S us).eqv
      (List.foldl GameState.applyUpdate T us) := by
  induction us generalizing S T with
  | nil => exact h
  | cons u rest ih =>
    simp [List.all_cons, Bool.and_eq_true] at hwf
    exact ih (applyUpdate_eqv_congr u h hwf.1) (by simp [List.all_eq_true]; exact hwf.2)

/-- Boolean strict-ascending check on a list of version counters. -/
def ascendingTO : List Nat → Bool
  | [] => true
  | [_] => true
  | a :: b :: rest => a < b && ascendingTO (b :: rest)

theorem ascendingTO_cons_cons (a b : Nat) (l : List Nat) :
    ascendingTO (a :: b :: l) = (decide (a < b) && ascendingTO (b :: l)) := rfl

/-- Folding a non-empty ascending run of well-formed updates into one combined
update and applying it is extensionally the same as applying them one at a
time. -/
theorem foldl_combine_applyUpdate (us : List GameStateUpdate)
    (S : GameState) (u : GameStateUpdate)
    (hchain : ascendingTO (S.time_order :: u.time_order ::
      us.map GameStateUpdate.time_order) = true)
    (hwf : (u :: us).all GameStateUpdate.wf = true) :
    (S.applyUpdate (List.foldl GameStateUpdate.combine u us)).eqv
      (List.foldl GameState.applyUpdate S (u :: us)) := by
  induction us generalizing S u with
  | nil => exact GameState.eqv_refl _
  | cons u2 rest ih =>
    simp [List.all_cons, Bool.and_eq_true] at hwf
    rw [ascendingTO_cons_cons, Bool.and_eq_true, decide_eq_true_eq] at hchain
    obtain ⟨hSu, hchain⟩ := hchain
    rw [List.map_cons, ascendingTO_cons_cons, Bool.and_eq_true, decide_eq_true_eq] at hchain
    obtain ⟨hu12, hchain2⟩ := hchain
    have hcwf : (u.combine u2).wf = true := GameStateUpdate.wf_combine hwf.1 hwf.2.1
    have hcto : (u.combine u2).time_order = u2.time_order := combine_time_order_of_lt hu12
    have hchain' : ascendingTO (S.time_order :: (u.combine u2).time_order ::
        rest.map GameStateUpdate.time_order) = true := by
      rw [ascendingTO_cons_cons, Bool.and_eq_true, decide_eq_true_eq, hcto]
      exact ⟨Nat.lt_trans hSu hu12, hchain2⟩
    have hih := ih S (u.combine u2) hchain'
      (by simp [List.all_cons, Bool.and_eq_true]; exact ⟨hcwf, hwf.2.2⟩)
    have hstep : (S.applyUpdate (u.combine u2)).eqv
        ((S.applyUpdate u).applyUpdate u2) :=
      applyUpdate_combine S u u2 hu12 hwf.1 hwf.2.1
    have hcongr := foldl_applyUpdate_eqv_congr rest hstep
      (by simp [List.all_eq_true]; exact hwf.2.2)
    exact GameState.eqv_trans hih hcongr

/-! ## The pygase `GameStateStore` (`backend.py`, class `GameStateStore`) -/

/-- `GameStateStore._update_cache_size = 100` (`backend.py` line 39). -/
def updateCacheSize : Nat := 100

/-- The store's two fields: the canonical `_game_state` and the
`_game_state_update_cache` list (`backend.py` lines 41-48). -/
structure GameStateStore where
  game_state : GameState
  update_cache : List GameStateUpdate
deriving DecidableEq, Repr

/-- Modelled from the spec: `GameState()` with no arguments, the canonical
state at backend construction: `time_order = 0`, empty attribute mappings.
The run-loop code (`backend.py` lines 317-322) treats a freshly stored state
as possibly `Paused` before the loop starts, so the initial status is Paused. -/
def GameState.initial : GameState :=
  { time_order := 0, game_status := GameStatus.paused, players := [], attrs := [] }

/-- Modelled from the spec: `GameStateUpdate(0)`, an update carrying
`time_order = 0` and no attribute assignments (`backend.py` line 48 creates
it as the initial cache entry). -/
def GameStateUpdate.empty (n : Nat) : GameStateUpdate :=
  { time_order := n, game_status := none, players := [], attrs := [] }

/-- `GameStateStore.__init__` with the default argument: canonical state
`GameState()` and cache `[GameStateUpdate(0)]` (`backend.py` lines 41-48). -/
def GameStateStore.init : GameStateStore :=
  { game_state := GameState.initial, update_cache := [GameStateUpdate.empty 0] }

/-- `GameStateStore.get_update_cache` (`backend.py` lines 50-52): returns
`self._game_state_update_cache.copy()`; on embedded values the copy is the
list itself (the aliasing aspect is treated separately in the heap model
below). -/
def GameStateStore.get_update_cache (store : GameStateStore) : List GameStateUpdate :=
  store.update_cache

/-- `GameStateStore.get_game_state` (`backend.py` lines 54-56). -/
def GameStateStore.get_game_state (store : GameStateStore) : GameState :=
  store.game_state

/-- `GameStateStore.push_update` (`backend.py` lines 58-75): append the update
to the cache, evict the oldest entry (`del cache[0]`) when the cache exceeds
100 entries, and apply the update to the canonical state only when
`update > self._game_state`, i.e. when its time order is strictly greater. -/
def GameStateStore.push_update (store : GameStateStore) (update : GameStateUpdate) :
    GameStateStore :=
  let cache1 := store.update_cache ++ [update]
  let cache2 := if cache1.length > updateCacheSize then cache1.drop 1 else cache1
  if update.time_order > store.game_state.time_order then
    { game_state := store.game_state.applyUpdate update, update_cache := cache2 }
  else
    { game_state := store.game_state, update_cache := cache2 }

/-- The last `n` entries of a list, in order (what a FIFO-evicting cache of
capacity `n` retains). -/
def lastN {α : Type} (n : Nat) (l : List α) : List α :=
  l.drop (l.length - n)

/-! ## The PyGaSe `GameService` request handler (`gameService.py`) -/

/-- `UPDATE_CACHE_SIZE = 100` (`gameService.py` line 21). -/
def UPDATE_CACHE_SIZE : Nat := 100

/-- The client activities of `gameService.py` (`ActivityType` plus its
payload from `sharedGameData.py`): the three lifecycle activities handled
inline by `_GameServiceRequestHandler.handle` and an opaque application
activity that is queued for the game loop. -/
inductive ClientActivity where
  | pauseGame
  | resumeGame
  | joinServer (name : String)
  | custom (tag : Nat)
deriving DecidableEq, Repr

/-- The request kinds `_GameServiceRequestHandler.handle` distinguishes
(`request.is_update_request()`, `..is_post_activity_request()`,
`..is_state_request()`, otherwise invalid).  An update request's body is the
client's own last known update (carrying its `time_order`). -/
inductive Request where
  | updateRequest (body : GameStateUpdate)
  | postActivity (activity : ClientActivity)
  | stateRequest
  | invalid
deriving DecidableEq, Repr

/-- The response bodies `handle` can send back: `_response(update)`,
`_response(shared_game_state)`, `_response(None)`, or the
`_request_invalid_error` reply.  (The `_unpack_error` branch concerns datagram
decoding, outside this embedding.) -/
inductive Response where
  | updateResponse (u : GameStateUpdate)
  | stateResponse (s : GameState)
  | emptyResponse
  | requestInvalidError
deriving DecidableEq, Repr

/-- The mutable server-side data `handle` touches: `shared_game_state`,
`_player_counter`, `_client_activity_queue` and the game loop's
`_state_update_cache` (`GameService.__init__`, `gameService.py` lines 37-46;
a fresh service starts with `_player_counter = 0` and empty queues). -/
structure ServerData where
  shared_game_state : GameState
  player_counter : Nat
  client_activity_queue : List ClientActivity
  state_update_cache : List GameStateUpdate
deriving DecidableEq, Repr

/-- `GameLoop._cache_state_update` (`gameService.py` lines 217-220): append,
then drop the oldest entry when the cache exceeds `UPDATE_CACHE_SIZE`. -/
def cacheStateUpdate (cache : List GameStateUpdate) (u : GameStateUpdate) :
    List GameStateUpdate :=
  let cache1 := cache ++ [u]
  if cache1.length > UPDATE_CACHE_SIZE then cache1.drop 1 else cache1

/-- The default player record inserted by the JoinServer branch
(`gameService.py` lines 119-125). -/
def joinRecord (name : String) : Player :=
  { name := name, position := (0, 0), velocity := (0, 0) }

/-- `_GameServiceRequestHandler.handle` (`gameService.py` lines 79-142) minus
the datagram decode step: dispatch on the request kind, mutate the server
data, and produce the response.

* update request: respond with `sum((upd for upd in cache if upd > body),
  body)` — the fold of all cached updates with strictly greater `time_order`,
  seeded with the client's own body (lines 90-96);
* PauseGame: `game_loop.pause()` (sets the shared status to Paused), bump
  `time_order`, cache a status-only update (lines 100-106);
* ResumeGame: bump `time_order`, cache a status-only update, and
  `game_loop.start()` (sets the shared status to Active) (lines 107-113);
* JoinServer: build an update inserting player `_player_counter`, increment
  the counter, apply the update to the shared state and cache it
  (lines 114-129);
* any other activity: append it to `_client_activity_queue` (lines 130-132);
* state request: respond with the full shared game state (lines 134-136);
* anything else: the request-invalid error (lines 137-139). -/
def handle (s : ServerData) : Request → ServerData × Response
  | Request.updateRequest body =>
      (s, Response.updateResponse
        ((s.state_update_cache.filter
            (fun upd => decide (body.time_order < upd.time_order))).foldl
          GameStateUpdate.combine body))
  | Request.postActivity ClientActivity.pauseGame =>
      let gs := s.shared_game_state
      let gs1 : GameState := { gs with game_status := GameStatus.paused }
      let gs2 : GameState := { gs1 with time_order := gs1.time_order + 1 }
      ({ s with
          shared_game_state := gs2
          state_update_cache := cacheStateUpdate s.state_update_cache
            { time_order := gs2.time_order, game_status := some GameStatus.paused,
              players := [], attrs := [] } },
        Response.emptyResponse)
  | Request.postActivity ClientActivity.resumeGame =>
      let gs := s.shared_game_state
      let gs1 : GameState := { gs with time_order := gs.time_order + 1 }
      let gs2 : GameState := { gs1 with game_status := GameStatus.active }
      ({ s with
          shared_game_state := gs2
          state_update_cache := cacheStateUpdate s.state_update_cache
            { time_order := gs1.time_order, game_status := some GameStatus.active,
              players := [], attrs := [] } },
        Response.emptyResponse)
  | Request.postActivity (ClientActivity.joinServer name) =>
      let update : GameStateUpdate :=
        { time_order := s.shared_game_state.time_order + 1
          game_status := none
          players := [(s.player_counter, some (joinRecord name))]
          attrs := [] }
      ({ s with
          shared_game_state := s.shared_game_state.applyUpdate update
          player_counter := s.player_counter + 1
          state_update_cache := cacheStateUpdate s.state_update_cache update },
        Response.emptyResponse)
  | Request.postActivity (ClientActivity.custom tag) =>
      ({ s with client_activity_queue :=
          s.client_activity_queue ++ [ClientActivity.custom tag] },
        Response.emptyResponse)
  | Request.stateRequest => (s, Response.stateResponse s.shared_game_state)
  | Request.invalid => (s, Response.requestInvalidError)

/-- Process a sequence of JoinServer activities, also recording which player
id each join was assigned (the dict key used for the new player record,
i.e. the `_player_counter` value consumed by `handle`). -/
def processJoins (s : ServerData) : List String → ServerData × List Nat
  | [] => (s, [])
  | name :: rest =>
      let s' := (handle s (Request.postActivity (ClientActivity.joinServer name))).1
      let r := processJoins s' rest
      (r.1, s.player_counter :: r.2)

/-! ## The simulation loop tick (`backend.py`, `GameStateMachine.run_game_loop`
lines 327-339)

Wall-clock time is abstracted by a deadline oracle: `oracle j` is the outcome
of the `time.perf_counter() - t0 > 0.95 * interval` check made right after the
`j`-th event of the tick has been handled and merged (line 335). -/

/-- The event-draining `while` loop of a tick (`backend.py` lines 331-336):
while the queue is non-empty, pop the front event, run its handler, merge the
returned attributes into the tick's accumulated dict (last-handled-wins), and
break once the deadline check trips.  `acc` is the accumulated `update_dict`,
`j` the number of events already handled this tick; returns the final dict and
the events left undrained, in their original order. -/
def drainEvents {E : Type} (handler : E → List (String × Nat))
    (oracle : Nat → Bool) :
    List E → List (String × Nat) → Nat → List (String × Nat) × List E
  | [], acc, _ => (acc, [])
  | e :: rest, acc, j =>
      let acc' := dmerge acc (handler e)
      if oracle (j + 1) then (acc', rest)
      else drainEvents handler oracle rest acc' (j + 1)

/-- How many events the drain loop handles before stopping: all of them, or
the first `j ≥ 1` whose post-handling deadline check trips, whichever is
smaller. -/
def handledCount {E : Type} (oracle : Nat → Bool) : List E → Nat → Nat
  | [], _ => 0
  | _ :: rest, j => if oracle (j + 1) then 1 else 1 + handledCount oracle rest (j + 1)

/-- One tick of `run_game_loop` (`backend.py` lines 327-339): compute the
time-step dict from the pre-tick state and `dt`, drain events under the
deadline oracle, and push one `GameStateUpdate(game_state.time_order + 1,
**update_dict)` to the store.  Returns the store and the remaining queue.
Events are identified by `Nat` tags; `dt` is an opaque tag passed to the
time-step function. -/
def tick (timeStep : GameState → Nat → List (String × Nat))
    (handler : Nat → List (String × Nat)) (oracle : Nat → Bool)
    (store : GameStateStore) (queue : List Nat) (dt : Nat) :
    GameStateStore × List Nat :=
  let gs := store.get_game_state
  let d := drainEvents handler oracle queue (timeStep gs dt) 0
  (store.push_update
    { time_order := gs.time_order + 1, game_status := none, players := [],
      attrs := d.1 },
    d.2)

theorem drainEvents_characterization {E : Type} (handler : E → List (String × Nat))
    (oracle : Nat → Bool) (queue : List E) (acc : List (String × Nat)) (j : Nat) :
    drainEvents handler oracle queue acc j =
      ((queue.take (handledCount oracle queue j)).foldl
         (fun a e => dmerge a (handler e)) acc,
       queue.drop (handledCount oracle queue j)) := by
  induction queue generalizing acc j with
  | nil => simp [drainEvents, handledCount]
  | cons e rest ih =>
    by_cases h : oracle (j + 1)
    · simp [drainEvents, handledCount, h]
    · simp only [drainEvents, handledCount, h, if_neg, if_false, Bool.false_eq_true,
        ite_false]
      rw [ih, Nat.add_comm 1 (handledCount oracle rest (j + 1))]
      simp [List.take_succ_cons, List.drop_succ_cons]

/-! ## `Server.dispatch_event` retry behaviour (`backend.py` lines 182-225) -/

/-- The externally visible actions of one `dispatch_event` call tree. -/
inductive DispatchAction where
  | send
  | logTimeoutWarning
  | raiseToCaller
deriving DecidableEq, Repr

/-- Modelled from the spec for the connection layer (an external collaborator:
`ServerConnection.dispatch_event` invokes exactly one of the acknowledgment or
timeout callbacks): the action trace of `Server.dispatch_event` on a single
known target whose acknowledgment never arrives.  The call sends the event
once; when `retries > 0` it installs a timeout callback (`backend.py` lines
205-217) which — once the send times out — re-enters `dispatch_event` with
`retries - 1` and then logs a warning.  With `retries = 0` no timeout callback
is installed and the timeout passes silently.  No branch raises. -/
def dispatchEventNoAckTrace : Nat → List DispatchAction
  | 0 => [DispatchAction.send]
  | retries + 1 =>
      DispatchAction.send ::
        (dispatchEventNoAckTrace retries ++ [DispatchAction.logTimeoutWarning])

/-! ## A reference-level model of the update-cache list (for the
`get_update_cache` copy semantics, `backend.py` line 52) -/

/-- A heap of Python list objects holding updates: a bump allocator plus the
contents of every allocated reference. -/
structure ListHeap where
  next : Nat
  mem : Nat → List GameStateUpdate

/-- Allocate a fresh list object with the given contents. -/
def ListHeap.alloc (h : ListHeap) (l : List GameStateUpdate) : ListHeap × Nat :=
  ({ next := h.next + 1, mem := fun r => if r = h.next then l else h.mem r }, h.next)

/-- In-place mutation of the list object behind a reference. -/
def ListHeap.write (h : ListHeap) (r : Nat) (l : List GameStateUpdate) : ListHeap :=
  { next := h.next, mem := fun r' => if r' = r then l else h.mem r' }

/-- `GameStateStore` at the reference level: the canonical state plus the
reference to the `_game_state_update_cache` list object. -/
structure GameStateStoreRef where
  game_state : GameState
  cache_ref : Nat

/-- `GameStateStore.__init__` at the reference level (`backend.py` lines
41-48): allocate the cache list `[GameStateUpdate(0)]`. -/
def GameStateStoreRef.init (h : ListHeap) : ListHeap × GameStateStoreRef :=
  let a := h.alloc [GameStateUpdate.empty 0]
  (a.1, { game_state := GameState.initial, cache_ref := a.2 })

/-- `GameStateStore.get_update_cache` at the reference level (`backend.py`
line 52): `self._game_state_update_cache.copy()` allocates a fresh list object
with the same contents and returns it. -/
def GameStateStoreRef.get_update_cache (h : ListHeap) (s : GameStateStoreRef) :
    ListHeap × Nat :=
  h.alloc (h.mem s.cache_ref)

/-! ## Helper lemmas -/

theorem lastN_length_le {α : Type} (n : Nat) (l : List α) : (lastN n l).length ≤ n := by
  simp [lastN]
  omega

theorem lastN_of_length_le {α : Type} (n : Nat) (l : List α) (h : l.length ≤ n) :
    lastN n l = l := by
  simp [lastN, Nat.sub_eq_zero_of_le h]

theorem lastN_drop {α : Type} (n k : Nat) (l : List α) (h : n + k ≤ l.length) :
    lastN n (l.drop k) = lastN n l := by
  simp only [lastN, List.drop_drop, List.length_drop]
  congr 1
  omega

theorem lastN_append_lastN {α : Type} (n : Nat) (l l' : List α) :
    lastN n (lastN n l ++ l') = lastN n (l ++ l') := by
  by_cases h : l.length ≤ n
  · rw [lastN_of_length_le n l h]
  · have hlt : n < l.length := Nat.lt_of_not_le h
    have hdrop : lastN n l ++ l' = (l ++ l').drop (l.length - n) := by
      rw [lastN, List.drop_append_of_le_length (Nat.sub_le _ _)]
    rw [hdrop, lastN_drop]
    simp
    omega

theorem push_update_cache_def (store : GameStateStore) (u : GameStateUpdate) :
    (store.push_update u).update_cache =
      if (store.update_cache ++ [u]).length > updateCacheSize
      then (store.update_cache ++ [u]).drop 1 else store.update_cache ++ [u] := by
  by_cases hg : u.time_order > store.game_state.time_order <;>
    simp [GameStateStore.push_update, hg]

theorem push_update_cache_eq (store : GameStateStore) (u : GameStateUpdate)
    (h : store.update_cache.length ≤ updateCacheSize) :
    (store.push_update u).update_cache =
      lastN updateCacheSize (store.update_cache ++ [u]) := by
  rw [push_update_cache_def]
  have hcases : (store.update_cache ++ [u]).length ≤ updateCacheSize ∨
      (store.update_cache ++ [u]).length = updateCacheSize + 1 := by
    simp; omega
  rcases hcases with hle | heq
  · rw [if_neg (Nat.not_lt_of_le hle), lastN_of_length_le _ _ hle]
  · have hone : (store.update_cache ++ [u]).length - updateCacheSize = 1 := by omega
    rw [if_pos (by omega), lastN, hone]

theorem push_update_cache_length (store : GameStateStore) (u : GameStateUpdate)
    (h : store.update_cache.length ≤ updateCacheSize) :
    (store.push_update u).update_cache.length ≤ updateCacheSize := by
  rw [push_update_cache_eq store u h]
  exact lastN_length_le _ _

theorem foldl_push_update_cache (us : List GameStateUpdate) (store : GameStateStore)
    (h : store.update_cache.length ≤ updateCacheSize) :
    (us.foldl GameStateStore.push_update store).update_cache =
      lastN updateCacheSize (store.update_cache ++ us) := by
  induction us generalizing store with
  | nil => simp [lastN_of_length_le _ _ h]
  | cons u rest ih =>
    rw [List.foldl_cons, ih (store.push_update u) (push_update_cache_length store u h),
      push_update_cache_eq store u h, lastN_append_lastN]
    simp

theorem filter_eq_self_of_all {α : Type} (p : α → Bool) (l : List α)
    (h : ∀ x ∈ l, p x = true) : l.filter p = l := by
  induction l with
  | nil => rfl
  | cons x rest ih =>
    rw [List.filter_cons, if_pos (h x (List.mem_cons_self x rest)),
      ih (fun y hy => h y (List.mem_cons_of_mem x hy))]

theorem processJoins_spec (names : List String) (s : ServerData) :
    (processJoins s names).2 = List.range' s.player_counter names.length ∧
    (processJoins s names).1.player_counter = s.player_counter + names.length ∧
    (∀ k, k < s.player_counter →
      dlookup k (processJoins s names).1.shared_game_state.players =
        dlookup k s.shared_game_state.players) ∧
    ∀ j, (hj : j < names.length) →
      dlookup (s.player_counter + j) (processJoins s names).1.shared_game_state.players =
        some (joinRecord (names.get ⟨j, hj⟩)) := by
  induction names generalizing s with
  | nil =>
    exact ⟨rfl, by simp [processJoins], fun k _ => rfl,
      fun j hj => absurd hj (by simp)⟩
  | cons name rest ih =>
    have hs' : (handle s (Request.postActivity (ClientActivity.joinServer name))).1 =
        { shared_game_state := s.shared_game_state.applyUpdate
            { time_order := s.shared_game_state.time_order + 1
              game_status := none
              players := [(s.player_counter, some (joinRecord name))]
              attrs := [] }
          player_counter := s.player_counter + 1
          client_activity_queue := s.client_activity_queue
          state_update_cache := cacheStateUpdate s.state_update_cache
            { time_order := s.shared_game_state.time_order + 1
              game_status := none
              players := [(s.player_counter, some (joinRecord name))]
              attrs := [] } } := rfl
    obtain ⟨hids, hcounter, hpres, hassigned⟩ :=
      ih (handle s (Request.postActivity (ClientActivity.joinServer name))).1
    refine ⟨?_, ?_, ?_, ?_⟩
    · show s.player_counter :: (processJoins _ rest).2 = _
      rw [hids, hs']
      rw [List.length_cons, List.range'_succ]
    · show (processJoins _ rest).1.player_counter = _
      rw [hcounter, hs']
      simp [List.length_cons]
      omega
    · intro k hk
      show dlookup k (processJoins _ rest).1.shared_game_state.players = _
      rw [hpres k (by rw [hs']; simpa using Nat.lt_succ_of_lt hk), hs']
      simp only [GameState.applyUpdate, papply, List.foldl_cons, List.foldl_nil]
      rw [dlookup_insertKV]
      exact if_neg (by omega)
    · intro j hj
      match j with
      | 0 =>
        show dlookup (s.player_counter + 0) (processJoins _ rest).1.shared_game_state.players = _
        rw [hpres (s.player_counter + 0) (by rw [hs']; simp), hs']
        simp only [GameState.applyUpdate, papply, List.foldl_cons, List.foldl_nil]
        rw [dlookup_insertKV]
        simp
      | j' + 1 =>
        have hj' : j' < rest.length := by simpa using hj
        have := hassigned j' hj'
        rw [hs'] at this
        show dlookup (s.player_counter + (j' + 1))
          (processJoins _ rest).1.shared_game_state.players = _
        have harith : s.player_counter + (j' + 1) = s.player_counter + 1 + j' := by omega
        rw [harith]
        exact this

/-! ## Concrete instances used by witnesses and counterexamples -/

/-- `Update(time_order=1, hp=90)` of spec Scenario A/B. -/
def hpUpdate90 : GameStateUpdate :=
  { time_order := 1, game_status := none, players := [], attrs := [("hp", 90)] }

/-- `Update(time_order=1, hp=80)` of spec Scenario B. -/
def hpUpdate80 : GameStateUpdate :=
  { time_order := 1, game_status := none, players := [], attrs := [("hp", 80)] }

/-- The store after pushing `hpUpdate90` onto a fresh store. -/
def storeAfter90 : GameStateStore := GameStateStore.init.push_update hpUpdate90

/-- A store whose canonical state sits at time order 5. -/
def storeAt5 : GameStateStore :=
  { game_state :=
      { time_order := 5, game_status := GameStatus.active, players := [],
        attrs := [("hp", 90)] }
    update_cache := [GameStateUpdate.empty 0] }

/-- A stale (non-monotonic) update: time order 3 against a state at 5. -/
def staleUpdate : GameStateUpdate :=
  { time_order := 3, game_status := none, players := [], attrs := [("hp", 80)] }

/-- 150 updates with ascending time orders 1..150. -/
def pushed150 : List GameStateUpdate :=
  (List.range 150).map (fun i => GameStateUpdate.empty (i + 1))

/-- A cached update at time order 5. -/
def cachedUpdate5 : GameStateUpdate :=
  { time_order := 5, game_status := none, players := [], attrs := [("hp", 90)] }

/-- An update-request body reporting client time order 1. -/
def clientBody1 : GameStateUpdate := GameStateUpdate.empty 1

/-- Server data whose update cache retains only the time-order-5 update. -/
def serverAt5 : ServerData :=
  { shared_game_state :=
      { time_order := 5, game_status := GameStatus.active, players := [],
        attrs := [("hp", 90)] }
    player_counter := 0
    client_activity_queue := []
    state_update_cache := [cachedUpdate5] }

/-- A freshly constructed service: player counter 0 (`GameService.__init__`). -/
def freshService : ServerData :=
  { shared_game_state := GameState.initial, player_counter := 0,
    client_activity_queue := [], state_update_cache := [] }

/-- A small state at time order 0 for the catch-up scenario. -/
def stateC5 : GameState :=
  { time_order := 0, game_status := GameStatus.active,
    players := [(0, { name := "A", position := (0, 0), velocity := (0, 0) })],
    attrs := [("hp", 100)] }

/-- First cached update of the catch-up scenario (inserts player 1). -/
def updC5a : GameStateUpdate :=
  { time_order := 1, game_status := none,
    players := [(1, some { name := "B", position := (3, 4), velocity := (0, 0) })],
    attrs := [("hp", 90)] }

/-- Second cached update of the catch-up scenario (deletes player 0). -/
def updC5b : GameStateUpdate :=
  { time_order := 2, game_status := some GameStatus.paused,
    players := [(0, none)], attrs := [("mp", 7)] }

/-! ## Claim theorems -/

/-- Claim C1: for every store and update pushed via `push_update`, if the
update's time order exceeds the canonical state's, the state's time order
becomes the update's and the update's present attributes (status, players,
plain attributes) are merged in; if it does not, the canonical state is
completely unchanged, so replaying or duplicating an update is idempotent. -/
theorem push_update_apply_or_noop (store : GameStateStore) (u : GameStateUpdate) :
    (u.time_order > store.get_game_state.time_order → u.wf = true →
      ((store.push_update u).get_game_state.time_order = u.time_order ∧
        (store.push_update u).get_game_state.game_status =
          u.game_status.getD store.get_game_state.game_status ∧
        (∀ k, dlookup k (store.push_update u).get_game_state.attrs =
          (dlookup k u.attrs).or (dlookup k store.get_game_state.attrs)) ∧
        (∀ k, dlookup k (store.push_update u).get_game_state.players =
          match dlookup k u.players with
          | some (some p) => some p
          | some none => none
          | none => dlookup k store.get_game_state.players))) ∧
    (u.time_order ≤ store.get_game_state.time_order →
      (store.push_update u).get_game_state = store.get_game_state) := by
  constructor
  · intro hgt hwf
    simp [GameStateUpdate.wf, Bool.and_eq_true] at hwf
    have hgt' : store.game_state.time_order < u.time_order := hgt
    have hpush : (store.push_update u).get_game_state =
        store.get_game_state.applyUpdate u := by
      simp [GameStateStore.push_update, GameStateStore.get_game_state, hgt']
    rw [hpush]
    refine ⟨rfl, rfl, ?_, ?_⟩
    · intro k
      exact dlookup_dmerge k _ _ hwf.2
    · intro k
      exact dlookup_papply k _ _ hwf.1
  · intro hle
    have hng : ¬ (store.game_state.time_order < u.time_order) :=
      Nat.not_lt_of_le hle
    simp [GameStateStore.push_update, GameStateStore.get_game_state, hng]

/-- Concrete run of claim C1 (spec Scenarios A and B): pushing
`Update(1, hp=90)` onto a fresh store takes the state to time order 1 with
`hp = 90`; then pushing `Update(1, hp=80)` (equal time order, not greater)
leaves the state untouched. -/
theorem push_update_apply_or_noop_witness :
    (1 > GameStateStore.init.get_game_state.time_order ∧ hpUpdate90.wf = true ∧
      storeAfter90.get_game_state.time_order = 1 ∧
      dlookup "hp" storeAfter90.get_game_state.attrs = some 90) ∧
    (hpUpdate80.time_order ≤ storeAfter90.get_game_state.time_order ∧
      (storeAfter90.push_update hpUpdate80).get_game_state =
        storeAfter90.get_game_state) := by
  constructor
  · refine ⟨by decide, by decide, ?_, ?_⟩
    · exact ((push_update_apply_or_noop GameStateStore.init hpUpdate90).1
        (by decide) (by decide)).1
    · have h := ((push_update_apply_or_noop GameStateStore.init hpUpdate90).1
        (by decide) (by decide)).2.2.1 "hp"
      show dlookup "hp"
        (GameStateStore.init.push_update hpUpdate90).get_game_state.attrs = some 90
      rw [h]
      decide
  · exact ⟨by decide,
      (push_update_apply_or_noop storeAfter90 hpUpdate80).2 (by decide)⟩

/-- Claim C2 counterexample: with a single cached update at time order 5 and a
client reporting time order 1 — which predates the oldest cached update, so
the changes of orders 2..4 are missing from the cache — `handle` still
answers with a combined-update response; it does not send the full current
`StateResponse` the claim requires.  The update-request branch of `handle`
has no full-state fallback at all. -/
theorem handle_update_request_no_fallback_cex :
    clientBody1.time_order < cachedUpdate5.time_order ∧
    (handle serverAt5 (Request.updateRequest clientBody1)).2 =
      Response.updateResponse (clientBody1.combine cachedUpdate5) ∧
    (handle serverAt5 (Request.updateRequest clientBody1)).2 ≠
      Response.stateResponse serverAt5.shared_game_state := by
  decide

/-- Claim C2 (amended): on an update request the server always responds with
the combined update — the fold of every cached update newer than the client's
reported time order, seeded with the client's body — and leaves the server
data untouched; in particular, when the client's time order predates every
cached update the combine simply runs over the whole cache, and a full State
is never sent in place of it. -/
theorem handle_update_request_always_combined (s : ServerData)
    (body : GameStateUpdate)
    (h : ∀ u ∈ s.state_update_cache, body.time_order < u.time_order) :
    (handle s (Request.updateRequest body)).2 =
      Response.updateResponse
        (s.state_update_cache.foldl GameStateUpdate.combine body) ∧
    (handle s (Request.updateRequest body)).1 = s := by
  refine ⟨?_, rfl⟩
  show Response.updateResponse
      ((s.state_update_cache.filter
          (fun upd => decide (body.time_order < upd.time_order))).foldl
        GameStateUpdate.combine body) = _
  rw [filter_eq_self_of_all _ _ (fun u hu => decide_eq_true (h u hu))]

/-- Concrete run of the amended claim C2: a server caching only the
time-order-5 update answers a client at time order 1 with the combined update
over the whole cache. -/
theorem handle_update_request_always_combined_witness :
    (∀ u ∈ serverAt5.state_update_cache,
      clientBody1.time_order < u.time_order) ∧
    (handle serverAt5 (Request.updateRequest clientBody1)).2 =
      Response.updateResponse
        (serverAt5.state_update_cache.foldl GameStateUpdate.combine clientBody1) :=
  ⟨by decide,
    (handle_update_request_always_combined serverAt5 clientBody1 (by decide)).1⟩

/-- Claim C3: the update cache is a fixed-capacity-100 FIFO: a sequence of
pushes leaves `get_update_cache` holding exactly the last 100 entries of
(previous cache ++ pushed updates), in insertion order, and never more than
100 entries. -/
theorem push_update_cache_fifo (store : GameStateStore)
    (us : List GameStateUpdate)
    (h : store.update_cache.length ≤ updateCacheSize) :
    (us.foldl GameStateStore.push_update store).get_update_cache =
      lastN updateCacheSize (store.update_cache ++ us) ∧
    (us.foldl GameStateStore.push_update store).get_update_cache.length ≤
      updateCacheSize := by
  have h2 : (us.foldl GameStateStore.push_update store).get_update_cache =
      lastN updateCacheSize (store.update_cache ++ us) :=
    foldl_push_update_cache us store h
  refine ⟨h2, ?_⟩
  rw [h2]
  exact lastN_length_le _ _

set_option maxRecDepth 8000 in
/-- Concrete run of claim C3 (the spec's cache-bound property): pushing 150
updates into a fresh store leaves a cache of length 100 holding exactly the
100 most recently pushed updates (numbers 51..150) in insertion order. -/
theorem push_update_cache_fifo_witness :
    GameStateStore.init.update_cache.length ≤ updateCacheSize ∧
    (pushed150.foldl GameStateStore.push_update GameStateStore.init).get_update_cache =
      pushed150.drop 50 ∧
    (pushed150.foldl GameStateStore.push_update GameStateStore.init).get_update_cache.length =
      100 := by
  have h := (push_update_cache_fifo GameStateStore.init pushed150 (by decide)).1
  refine ⟨by decide, ?_, ?_⟩
  · rw [h]
    decide
  · rw [h]
    decide

/-- Claim C4 counterexample: pushing a non-monotonic update (time order 3
against a canonical state at 5) does not raise any error at the call site —
the embedded `push_update` is a total function because the source path
contains no raise — it returns normally, silently appending the stale update
to the cache while leaving the canonical state unchanged.  The claim's
required hard failure does not happen. -/
theorem push_update_nonmonotonic_no_error :
    storeAt5.push_update staleUpdate =
      { game_state := storeAt5.game_state
        update_cache := [GameStateUpdate.empty 0, staleUpdate] } := by
  decide

/-- Claim C4 (amended): pushing a non-monotonic update is silently accepted
rather than failing the caller: `push_update` has no validity check and no
error path; the stale update still enters the cache (with normal FIFO
eviction) and the canonical state is left completely unchanged — so the state
is indeed not corrupted, but no error surfaces either. -/
theorem push_update_nonmonotonic_silent (store : GameStateStore)
    (u : GameStateUpdate) (h : u.time_order ≤ store.get_game_state.time_order) :
    (store.push_update u).get_game_state = store.get_game_state ∧
    (store.push_update u).get_update_cache =
      (if (store.update_cache ++ [u]).length > updateCacheSize
       then (store.update_cache ++ [u]).drop 1
       else store.update_cache ++ [u]) := by
  refine ⟨?_, push_update_cache_def store u⟩
  have hng : ¬ (store.game_state.time_order < u.time_order) := Nat.not_lt_of_le h
  simp [GameStateStore.push_update, GameStateStore.get_game_state, hng]

/-- Concrete run of the amended claim C4: the stale time-order-3 update
leaves the state at time order 5 untouched and lands in the cache. -/
theorem push_update_nonmonotonic_silent_witness :
    staleUpdate.time_order ≤ storeAt5.get_game_state.time_order ∧
    (storeAt5.push_update staleUpdate).get_game_state =
      storeAt5.get_game_state := by
  exact ⟨by decide,
    (push_update_nonmonotonic_silent storeAt5 staleUpdate (by decide)).1⟩

/-- Claim C5: for every state `S` and non-empty ascending run `u :: us` of
well-formed cached updates whose first time order exceeds `S`'s, folding the
run into one combined update (last-writer-wins union carrying the greatest
time order) and applying that single update to `S` yields the same state
(Python equality) as applying the updates to `S` one at a time in order.
The statement quantifies over every ascending run, hence in particular over
every order-preserving subset of a cache — which is what makes the catch-up
response (a Combine-fold of the cached updates newer than the client's
time order, seeded with the client's reported body) correct. -/
theorem combine_fold_apply_eq_sequential (S : GameState) (u : GameStateUpdate)
    (us : List GameStateUpdate)
    (hchain : ascendingTO (S.time_order :: u.time_order ::
      us.map GameStateUpdate.time_order) = true)
    (hwf : (u :: us).all GameStateUpdate.wf = true) :
    (S.applyUpdate (List.foldl GameStateUpdate.combine u us)).eqv
      (List.foldl GameState.applyUpdate S (u :: us)) :=
  foldl_combine_applyUpdate us S u hchain hwf

/-- Concrete run of claim C5: a state at time order 0 with one cached run of
two updates (orders 1 and 2, touching `hp`/`mp`, inserting player 1 and
deleting player 0): the combined update applied once agrees with sequential
application. -/
theorem combine_fold_apply_eq_sequential_witness :
    ascendingTO (stateC5.time_order :: updC5a.time_order ::
      [updC5b].map GameStateUpdate.time_order) = true ∧
    (updC5a :: [updC5b]).all GameStateUpdate.wf = true ∧
    (stateC5.applyUpdate (List.foldl GameStateUpdate.combine updC5a [updC5b])).eqv
      (List.foldl GameState.applyUpdate stateC5 (updC5a :: [updC5b])) := by
  refine ⟨by decide, by decide, ?_⟩
  exact combine_fold_apply_eq_sequential stateC5 updC5a [updC5b]
    (by decide) (by decide)

/-- Claim C6: `dispatch_event` with `retries = n` on a target whose
acknowledgment never arrives performs exactly `n + 1` send attempts (the
original plus one resend per timeout, each decrementing the budget), and the
call tree's trace never contains a raise to the caller — exhaustion of the
budget only leaves the logged timeout warnings. -/
theorem dispatch_event_no_ack_attempts (retries : Nat) :
    (dispatchEventNoAckTrace retries).count DispatchAction.send = retries + 1 ∧
    DispatchAction.raiseToCaller ∉ dispatchEventNoAckTrace retries := by
  induction retries with
  | zero => exact ⟨by decide, by decide⟩
  | succ n ih =>
    constructor
    · simp [dispatchEventNoAckTrace, List.count_cons, List.count_append, ih.1]
    · simp [dispatchEventNoAckTrace]
      exact ih.2

/-- Claim C7: starting from a service whose player counter is 0 (as
constructed), a sequence of `n` Join requests is assigned exactly the player
ids `0, 1, ..., n - 1` in join order — unique and never reused within the
session, with the counter ending at `n` — and each id is inserted into the
state's players mapping with the joining client's name. -/
theorem join_ids_sequential (s : ServerData) (names : List String)
    (h : s.player_counter = 0) :
    (processJoins s names).2 = List.range names.length ∧
    (processJoins s names).1.player_counter = names.length ∧
    ∀ j, (hj : j < names.length) →
      dlookup j (processJoins s names).1.shared_game_state.players =
        some (joinRecord (names.get ⟨j, hj⟩)) := by
  obtain ⟨hids, hcounter, _, hassigned⟩ := processJoins_spec names s
  refine ⟨?_, ?_, ?_⟩
  · rw [hids, h]
    exact (List.range_eq_range' names.length).symm
  · rw [hcounter, h, Nat.zero_add]
  · intro j hj
    have hj' := hassigned j hj
    rw [h, Nat.zero_add] at hj'
    exact hj'

/-- Concrete run of claim C7 (spec Scenario C): three clients joining as
"A", "B", "C" receive ids 0, 1, 2 in that order, each on record with their
name. -/
theorem join_ids_sequential_witness :
    freshService.player_counter = 0 ∧
    (processJoins freshService ["A", "B", "C"]).2 = [0, 1, 2] ∧
    (processJoins freshService ["A", "B", "C"]).1.player_counter = 3 ∧
    dlookup 0 (processJoins freshService
      ["A", "B", "C"]).1.shared_game_state.players = some (joinRecord "A") ∧
    dlookup 1 (processJoins freshService
      ["A", "B", "C"]).1.shared_game_state.players = some (joinRecord "B") ∧
    dlookup 2 (processJoins freshService
      ["A", "B", "C"]).1.shared_game_state.players = some (joinRecord "C") := by
  obtain ⟨hids, hcounter, hlook⟩ :=
    join_ids_sequential freshService ["A", "B", "C"] rfl
  refine ⟨rfl, by rw [hids]; rfl, by rw [hcounter]; rfl, ?_, ?_, ?_⟩
  · exact hlook 0 (by decide)
  · exact hlook 1 (by decide)
  · exact hlook 2 (by decide)

/-- Claim C8: every tick pushes exactly one update to the state store: the
tick equals a single `push_update` of the update whose time order is the
pre-tick canonical state's plus one and whose attributes are the time-step
function's dict merged — in handling order, last-handled-wins per attribute —
with the dicts of the events drained this tick (the first `handledCount` of
the queue); the undrained events are exactly the untouched tail of the queue,
in their original order, so subsequent ticks process them from the front; and
the post-tick canonical state sits at the pre-tick time order plus one. -/
theorem tick_one_update_per_tick (timeStep : GameState → Nat → List (String × Nat))
    (handler : Nat → List (String × Nat)) (oracle : Nat → Bool)
    (store : GameStateStore) (queue : List Nat) (dt : Nat) :
    tick timeStep handler oracle store queue dt =
      (store.push_update
        { time_order := store.get_game_state.time_order + 1
          game_status := none
          players := []
          attrs := (queue.take (handledCount oracle queue 0)).foldl
            (fun a e => dmerge a (handler e)) (timeStep store.get_game_state dt) },
       queue.drop (handledCount oracle queue 0)) ∧
    (tick timeStep handler oracle store queue dt).1.get_game_state.time_order =
      store.get_game_state.time_order + 1 := by
  have hc := drainEvents_characterization handler oracle queue
    (timeStep store.get_game_state dt) 0
  have htick : tick timeStep handler oracle store queue dt =
      (store.push_update
        { time_order := store.get_game_state.time_order + 1
          game_status := none
          players := []
          attrs := (queue.take (handledCount oracle queue 0)).foldl
            (fun a e => dmerge a (handler e)) (timeStep store.get_game_state dt) },
       queue.drop (handledCount oracle queue 0)) := by
    simp only [tick, hc]
  refine ⟨htick, ?_⟩
  rw [htick]
  have hgt : store.game_state.time_order < store.game_state.time_order + 1 :=
    Nat.lt_succ_self _
  simp [GameStateStore.push_update, GameStateStore.get_game_state,
    GameState.applyUpdate, hgt]

/-- Claim C9: a freshly constructed `GameStateStore` does not start with an
empty cache: `get_update_cache` returns the one-element list
`[GameStateUpdate(0)]` (its sole element at time order 0) and the state is at
time order 0; moreover the returned list is a copy — in the reference-level
model, `get_update_cache` allocates a fresh list object distinct from the
store's internal `_game_state_update_cache`, so writing to the returned list
leaves the internal cache unchanged. -/
theorem fresh_store_cache_copy (h : ListHeap) (l : List GameStateUpdate) :
    GameStateStore.init.get_update_cache = [GameStateUpdate.empty 0] ∧
    (GameStateUpdate.empty 0).time_order = 0 ∧
    GameStateStore.init.get_game_state.time_order = 0 ∧
    (GameStateStoreRef.get_update_cache (GameStateStoreRef.init h).1
        (GameStateStoreRef.init h).2).1.mem
      (GameStateStoreRef.get_update_cache (GameStateStoreRef.init h).1
        (GameStateStoreRef.init h).2).2 = [GameStateUpdate.empty 0] ∧
    (GameStateStoreRef.get_update_cache (GameStateStoreRef.init h).1
        (GameStateStoreRef.init h).2).2 ≠ (GameStateStoreRef.init h).2.cache_ref ∧
    ((GameStateStoreRef.get_update_cache (GameStateStoreRef.init h).1
          (GameStateStoreRef.init h).2).1.write
        (GameStateStoreRef.get_update_cache (GameStateStoreRef.init h).1
          (GameStateStoreRef.init h).2).2 l).mem
      (GameStateStoreRef.init h).2.cache_ref =
    (GameStateStoreRef.get_update_cache (GameStateStoreRef.init h).1
        (GameStateStoreRef.init h).2).1.mem (GameStateStoreRef.init h).2.cache_ref := by
  refine ⟨rfl, rfl, rfl, ?_, ?_, ?_⟩
  · simp [GameStateStoreRef.init, GameStateStoreRef.get_update_cache, ListHeap.alloc]
  · simp [GameStateStoreRef.init, GameStateStoreRef.get_update_cache, ListHeap.alloc]
  · simp only [GameStateStoreRef.init, GameStateStoreRef.get_update_cache,
      ListHeap.alloc, ListHeap.write]
    rw [if_neg (by omega)]

/-- Claim C10: the drain loop checks the 95%-deadline only after an event has
been handled and merged, never before: whenever a tick starts its drain with
a non-empty queue, at least one event is handled that tick — under every
deadline oracle, including one that reports the deadline as already exceeded
from the start — so the tick consumes at least one queued event and queued
events are never starved for an entire tick. -/
theorem drain_handles_at_least_one (oracle : Nat → Bool) (queue : List Nat)
    (h : queue ≠ []) :
    1 ≤ handledCount oracle queue 0 ∧
    ∀ timeStep handler store dt,
      ((tick timeStep handler oracle store queue dt).2).length < queue.length := by
  obtain ⟨e, rest, rfl⟩ := List.exists_cons_of_ne_nil h
  have h1 : 1 ≤ handledCount oracle (e :: rest) 0 := by
    by_cases ho : oracle 1 <;> simp [handledCount, ho]
  refine ⟨h1, ?_⟩
  intro timeStep handler store dt
  have hc := drainEvents_characterization handler oracle (e :: rest)
    (timeStep store.get_game_state dt) 0
  have h2 : (tick timeStep handler oracle store (e :: rest) dt).2 =
      (e :: rest).drop (handledCount oracle (e :: rest) 0) := by
    simp only [tick, hc]
  rw [h2, List.length_drop]
  simp only [List.length_cons]
  omega

/-- Concrete run of claim C10: a queue holding one event under an oracle that
says the deadline has already passed still handles that event, and the tick
leaves the queue empty. -/
theorem drain_handles_at_least_one_witness :
    ([7] : List Nat) ≠ [] ∧ 1 ≤ handledCount (fun _ => true) ([7] : List Nat) 0 ∧
    ((tick (fun _ _ => []) (fun _ => []) (fun _ => true)
        GameStateStore.init [7] 0).2).length < 1 := by
  have h := drain_handles_at_least_one (fun _ => true) [7] (by decide)
  exact ⟨by decide, h.1, h.2 (fun _ _ => []) (fun _ => []) GameStateStore.init 0⟩
